import Mathlib

/-!
Shallow embedding of the stealth-address core of `src/index.ts`.

Hex strings (the `Hex` type of the source) are modelled as `List Char`.
JavaScript `s.slice(a, b)` with non-negative indices is `(s.take b).drop a`,
and `s.slice(s.length - 2)` is `s.drop (s.length - 2)`: for strings of
length `< 2` the JavaScript index is negative and wraps, yielding the whole
string, which truncated `Nat` subtraction (`drop 0`) reproduces exactly.

The elliptic-curve primitives (`@noble/secp256k1`) are external
collaborators.  The curve group has prime order `n` and cofactor 1, so it is
cyclic, generated by `G`; we model a point by its discrete logarithm base
`G`, reduced mod `n`.  Under this representation `G = 1`, point addition is
addition mod `n`, and multiplication of a point by a scalar is
multiplication mod `n`.  The hash `keccak256` and the public-key-to-chain-
address conversion `publicKeyToAddress` are abstract function parameters of
the operations that use them, and the serialization of a point collapses to
the point itself (serialization is injective and both sides of the protocol
use the same one).
-/

namespace StealthAddr

/-- JavaScript `s.slice(a, b)` for non-negative `a ≤ b`. -/
def jsSlice (s : List Char) (a b : Nat) : List Char := (s.take b).drop a

/-- Result of `extractPortions`: the two 32-byte (64 hex character) chunks
after the `0x` prefix, and the final byte of the signature. -/
structure Portions where
  portion1 : List Char
  portion2 : List Char
  lastByte : List Char
deriving DecidableEq

/-- `extractPortions` from src/index.ts: `portion1 = signature.slice(2, 66)`,
`portion2 = signature.slice(66, 130)`, `lastByte = signature.slice(signature.length - 2)`. -/
def extractPortions (signature : List Char) : Portions where
  portion1 := jsSlice signature 2 66
  portion2 := jsSlice signature 66 130
  lastByte := signature.drop (signature.length - 2)

/-- `generateStealthMetaAddressFromKeys` from src/index.ts:
the template string `0x${spendingPublicKey.slice(2)}${viewingPublicKey.slice(2)}`. -/
def generateStealthMetaAddressFromKeys (spendingPublicKey viewingPublicKey : List Char) :
    List Char :=
  '0' :: 'x' :: (spendingPublicKey.drop 2 ++ viewingPublicKey.drop 2)

/-- Interface `StealthMetaPublicKey` of src/index.ts (hex-string level). -/
structure StealthMetaPublicKey where
  spendingPublicKey : List Char
  viewingPublicKey : List Char
deriving DecidableEq

/-- `parseKeysFromStealthMetaAddress` from src/index.ts:
`spendingPublicKey = 0x${stealthMeta.slice(2, 68)}`,
`viewingPublicKey = 0x${stealthMeta.slice(68)}`.  The source performs no
length validation and has no failure path, so the model is a total function. -/
def parseKeysFromStealthMetaAddress (stealthMeta : List Char) : StealthMetaPublicKey where
  spendingPublicKey := '0' :: 'x' :: jsSlice stealthMeta 2 68
  viewingPublicKey := '0' :: 'x' :: stealthMeta.drop 68

/-- Interface `Key` of src/index.ts. -/
structure Key where
  publicKey : List Char
  privateKey : List Char
deriving DecidableEq

/-- Interface `StealthKey` of src/index.ts. -/
structure StealthKey where
  viewingKey : Key
  spendingKey : Key
deriving DecidableEq

/-- Error raised by `generateStealthKeyFromSignature`
(`throw new Error("Signature incorrectly generated or parsed")` in the source;
named `MalformedSeed` in the specification). -/
inductive StealthError where
  | MalformedSeed
deriving DecidableEq

/-- Reassembly `0x${portion1}${portion2}${lastByte}` checked against the
original signature by `generateStealthKeyFromSignature`. -/
def reassembled (p : Portions) : List Char :=
  '0' :: 'x' :: (p.portion1 ++ p.portion2 ++ p.lastByte)

/-- `generateStealthKeyFromSignature` from src/index.ts, with the external
`keccak256` and compressed `getPublicKey` primitives as function parameters
(both map hex strings to hex strings; the source's `hexToBytes`/`bytesToHex`
round trip between a hex string and its byte representation collapses at this
level). -/
def generateStealthKeyFromSignature (keccak256 getPublicKey : List Char → List Char)
    (signature : List Char) : Except StealthError StealthKey :=
  let p := extractPortions signature
  if reassembled p ≠ signature then
    .error .MalformedSeed
  else
    let spendingPrivateKey := keccak256 ('0' :: 'x' :: p.portion1)
    let viewingPrivateKey := keccak256 ('0' :: 'x' :: p.portion2)
    .ok { spendingKey := { publicKey := getPublicKey spendingPrivateKey,
                           privateKey := spendingPrivateKey },
          viewingKey := { publicKey := getPublicKey viewingPrivateKey,
                          privateKey := viewingPrivateKey } }

/-- Order `n` of the secp256k1 group (`CURVE.n` of `@noble/secp256k1`). -/
def curveOrder : Nat :=
  0xFFFFFFFFFFFFFFFFFFFFFFFFFFFFFFFEBAAEDCE6AF48A03BBFD25E8CD0364141

/-- Scalar-times-generator `k * G` in the discrete-logarithm representation
(`getPublicKey` / `ProjectivePoint.fromPrivateKey` of the curve library). -/
def pmulBase (k : Nat) : Nat := k % curveOrder

/-- Multiplication of a point by a scalar in the discrete-logarithm
representation. -/
def pmul (k P : Nat) : Nat := (k * P) % curveOrder

/-- Point addition in the discrete-logarithm representation
(`ProjectivePoint.add` of the curve library). -/
def padd (P Q : Nat) : Nat := (P + Q) % curveOrder

/-- `getSharedSecret(priv, pub)` of the curve library: the ECDH point
`priv * pub` (its serialization collapses to the point itself). -/
def getSharedSecret (privKey pubPoint : Nat) : Nat := pmul privKey pubPoint

/-- `getViewTag` from src/index.ts: the first byte of the 32-byte keccak
digest, i.e. `hashSharedSecret.substring(2, 4)` of the 64-hex-character
rendering, which is the value divided by `16 ^ 62 = 2 ^ 248`. -/
def getViewTag (hashSharedSecret : Nat) : Nat := hashSharedSecret / 2 ^ 248

/-- Stealth point `spendingPublicKey + hashSharedSecret * G` computed by
`getStealthPublicKey` in src/index.ts. -/
def stealthPointOf (spendingPublicKey hashSharedSecret : Nat) : Nat :=
  padd spendingPublicKey (pmulBase hashSharedSecret)

/-- Error surfaced by the curve library when a compressed point encoding is
invalid (`ProjectivePoint.fromHex` throws). -/
inductive PointError where
  | InvalidPointEncoding
deriving DecidableEq

/-- `getStealthPublicKey` from src/index.ts.  Its input `spendingPublicKey`
arrives as an untrusted hex encoding which `ProjectivePoint.fromHex` decodes,
raising on an invalid encoding; the decoded input is modelled as
`Option Nat` (`none` = invalid encoding) and the raise as `Except.error`. -/
def getStealthPublicKey (spendingPublicKey : Option Nat) (hashSharedSecret : Nat) :
    Except PointError Nat :=
  match spendingPublicKey with
  | none => .error .InvalidPointEncoding
  | some P => .ok (stealthPointOf P hashSharedSecret)

/-- Decoded meta-address at the point level (a valid meta-address: both
compressed encodings decode). -/
structure StealthMetaPoints where
  spendingPublicKey : Nat
  viewingPublicKey : Nat

/-- Interface `StealthAddress` of src/index.ts.  The field named
`stealthPublicKey` holds the chain address `publicKeyToAddress(stealthPoint)`
(the source stores the address in that field). -/
structure StealthAddressOut where
  stealthPublicKey : Nat
  ephemeralPublicKey : Nat
  viewTag : Nat
deriving DecidableEq

/-- `generateStealthAddress` from src/index.ts on a decoded (valid)
meta-address.  `H` is `keccak256` composed with the shared-secret
serialization, `toAddr` is `publicKeyToAddress`, and the fresh random
ephemeral scalar of `utils.randomPrivateKey()` is injected as the explicit
argument `ephemeralPrivateKey`. -/
def generateStealthAddress (H toAddr : Nat → Nat) (ephemeralPrivateKey : Nat)
    (meta : StealthMetaPoints) : StealthAddressOut :=
  let ephemeralPublicKey := pmulBase ephemeralPrivateKey
  let sharedSecret := getSharedSecret ephemeralPrivateKey meta.viewingPublicKey
  let hashSharedSecret := H sharedSecret
  { stealthPublicKey := toAddr (stealthPointOf meta.spendingPublicKey hashSharedSecret),
    ephemeralPublicKey := ephemeralPublicKey,
    viewTag := getViewTag hashSharedSecret }

/-- `addPriv` from src/index.ts: `(a + b) % CURVE.n`. -/
def addPriv (a b : Nat) : Nat := (a + b) % curveOrder

/-- Scalar computed by `computeStealthPrivateKey` in src/index.ts before hex
encoding: `addPriv(spendingPrivateKey, keccak256(sharedSecret))` where the
shared secret is `getSharedSecret(viewingPrivateKey, ephemeralPublicKey)`. -/
def computeStealthPrivateKeyScalar (H : Nat → Nat)
    (spendingPrivateKey viewingPrivateKey ephemeralPublicKey : Nat) : Nat :=
  addPriv spendingPrivateKey (H (getSharedSecret viewingPrivateKey ephemeralPublicKey))

/-- Lowercase hex digit character for `d < 16` (`'0'` is code 48, `'a'` is 97). -/
def hexChar (d : Nat) : Char :=
  if d < 10 then Char.ofNat (48 + d) else Char.ofNat (87 + d)

/-- Value of a lowercase hex digit character. -/
def hexVal (c : Char) : Nat :=
  if 97 ≤ c.toNat then c.toNat - 87 else c.toNat - 48

/-- Big-endian minimal hex rendering of `k`, as JavaScript
`k.toString(16)` produces (empty for `k = 0`, where JavaScript gives `"0"`;
the difference disappears under the 64-zero padding below). -/
def bigEndianHex (k : Nat) : List Char := ((Nat.digits 16 k).map hexChar).reverse

/-- JavaScript `k.toString(16).padStart(64, "0")`. -/
def padHex64 (k : Nat) : List Char :=
  List.replicate (64 - (bigEndianHex k).length) '0' ++ bigEndianHex k

/-- `computeStealthPrivateKey` from src/index.ts: the template string
`0x${stealthPrivateKeyBigInt.toString(16).padStart(64, "0")}`. -/
def computeStealthPrivateKey (H : Nat → Nat)
    (spendingPrivateKey viewingPrivateKey ephemeralPublicKey : Nat) : List Char :=
  '0' :: 'x' ::
    padHex64 (computeStealthPrivateKeyScalar H spendingPrivateKey viewingPrivateKey
      ephemeralPublicKey)

/-- Big-endian hex evaluation, inverse of `padHex64` (used to state that the
encoded output denotes the computed scalar). -/
def hexToNat (cs : List Char) : Nat := Nat.ofDigits 16 ((cs.map hexVal).reverse)

/-- `checkStealthAddress` from src/index.ts.  The announced
`ephemeralPublicKey` and the `spendingPublicKey` arrive as untrusted hex
encodings, modelled as `Option Nat` after decoding; `hexToBytes` together
with `getSharedSecret` raises on an invalid ephemeral encoding, and point
decoding of `spendingPublicKey` happens inside `getStealthPublicKey`, only
after the view-tag comparison has passed. -/
def checkStealthAddress (H toAddr : Nat → Nat) (stealthAddress : Nat)
    (ephemeralPublicKey spendingPublicKey : Option Nat)
    (viewingPrivateKey viewTag : Nat) : Except PointError Bool :=
  match ephemeralPublicKey with
  | none => .error .InvalidPointEncoding
  | some E =>
    let hashSharedSecret := H (getSharedSecret viewingPrivateKey E)
    let computedViewTag := getViewTag hashSharedSecret
    if computedViewTag ≠ viewTag then
      .ok false
    else
      (getStealthPublicKey spendingPublicKey hashSharedSecret).map
        (fun P => decide (stealthAddress = toAddr P))

/-- Predicate for a lowercase hexadecimal digit character. -/
def isHexDigit (c : Char) : Bool :=
  decide ((48 ≤ c.toNat ∧ c.toNat ≤ 57) ∨ (97 ≤ c.toNat ∧ c.toNat ≤ 102))

theorem curveOrder_pos : 0 < curveOrder := by norm_num [curveOrder]

theorem curveOrder_lt_pow : curveOrder < 16 ^ 64 := by norm_num [curveOrder]

/-- ECDH symmetry in the discrete-logarithm model: the sender's shared point
`e * (v * G)` and the recipient's shared point `v * (e * G)` coincide. -/
theorem getSharedSecret_comm (e v : Nat) :
    getSharedSecret v (pmulBase e) = getSharedSecret e (pmulBase v) := by
  unfold getSharedSecret pmul pmulBase
  conv_lhs => rw [Nat.mul_mod, Nat.mod_mod_of_dvd _ dvd_rfl, ← Nat.mul_mod]
  conv_rhs => rw [Nat.mul_mod, Nat.mod_mod_of_dvd _ dvd_rfl, ← Nat.mul_mod]
  rw [Nat.mul_comm]

theorem hexVal_hexChar {d : Nat} (hd : d < 16) : hexVal (hexChar d) = d := by
  interval_cases d <;> decide

theorem isHexDigit_hexChar {d : Nat} (hd : d < 16) : isHexDigit (hexChar d) = true := by
  interval_cases d <;> decide

theorem ofDigits_replicate_zero (b m : Nat) : Nat.ofDigits b (List.replicate m 0) = 0 := by
  induction m with
  | zero => simp
  | succ k ih => simp [List.replicate_succ, Nat.ofDigits_cons, ih]

theorem digits_sixteen_len_le {k m : Nat} (hk : k < 16 ^ m) :
    (Nat.digits 16 k).length ≤ m := by
  rcases Nat.eq_zero_or_pos k with rfl | hk0
  · simp
  · by_contra hlen
    push_neg at hlen
    have h1 : 16 ^ (Nat.digits 16 k).length ≤ 16 * k :=
      Nat.base_pow_length_digits_le 16 k (by norm_num) (Nat.pos_iff_ne_zero.mp hk0)
    have h2 : 16 ^ (m + 1) ≤ 16 ^ (Nat.digits 16 k).length :=
      Nat.pow_le_pow_right (by norm_num) hlen
    have h3 : 16 * 16 ^ m ≤ 16 * k := by
      calc 16 * 16 ^ m = 16 ^ (m + 1) := (pow_succ' 16 m).symm
        _ ≤ 16 ^ (Nat.digits 16 k).length := h2
        _ ≤ 16 * k := h1
    omega

theorem bigEndianHex_length (k : Nat) :
    (bigEndianHex k).length = (Nat.digits 16 k).length := by
  simp [bigEndianHex]

theorem padHex64_length {k : Nat} (hk : k < 16 ^ 64) : (padHex64 k).length = 64 := by
  have h := digits_sixteen_len_le hk
  simp [padHex64, bigEndianHex_length]
  omega

theorem hexToNat_padHex64 (k : Nat) : hexToNat (padHex64 k) = k := by
  have hmap : (Nat.digits 16 k).map (fun d => hexVal (hexChar d)) = Nat.digits 16 k := by
    calc (Nat.digits 16 k).map (fun d => hexVal (hexChar d))
        = (Nat.digits 16 k).map id :=
          List.map_congr_left fun d hd =>
            hexVal_hexChar (Nat.digits_lt_base (by norm_num) hd)
      _ = Nat.digits 16 k := List.map_id _
  have h0 : hexVal '0' = 0 := by decide
  unfold hexToNat padHex64 bigEndianHex
  rw [List.map_append, List.map_reverse, List.map_map, List.reverse_append,
    List.reverse_reverse]
  simp only [Function.comp_def, hmap, List.map_replicate, h0, List.reverse_replicate]
  rw [Nat.ofDigits_append, Nat.ofDigits_digits, ofDigits_replicate_zero, Nat.mul_zero,
    Nat.add_zero]

theorem padHex64_hex_digits {k : Nat} (c : Char) (hc : c ∈ padHex64 k) :
    isHexDigit c = true := by
  rcases List.mem_append.mp hc with h | h
  · have := List.eq_of_mem_replicate h
    subst this
    decide
  · rw [bigEndianHex, List.mem_reverse] at h
    obtain ⟨d, hd, rfl⟩ := List.mem_map.mp h
    exact isHexDigit_hexChar (Nat.digits_lt_base (by norm_num) hd)

/-- Characterization of the reassembly guard of
`generateStealthKeyFromSignature`: `0x${portion1}${portion2}${lastByte}`
reproduces the input exactly when the input has length 132 and starts with
the characters `0x`. -/
theorem reassembled_eq_iff (s : List Char) :
    reassembled (extractPortions s) = s ↔ s.length = 132 ∧ s.take 2 = ['0', 'x'] := by
  constructor
  · intro h
    have hlen := congrArg List.length h
    simp [reassembled, extractPortions, jsSlice] at hlen
    have h132 : s.length = 132 := by omega
    refine ⟨h132, ?_⟩
    have h2 := congrArg (List.take 2) h
    simp [reassembled] at h2
    exact h2.symm
  · rintro ⟨h132, h2⟩
    obtain ⟨t, rfl⟩ : ∃ t, s = '0' :: 'x' :: t := by
      refine ⟨s.drop 2, ?_⟩
      conv_lhs => rw [← List.take_append_drop 2 s, h2]
      rfl
    have ht : t.length = 130 := by simp at h132; omega
    simp only [reassembled, extractPortions, jsSlice, List.length_cons, ht]
    simp
    rw [List.drop_take, ← List.append_assoc, ← List.take_add]
    norm_num

/-- Claim C10: the malformed-seed reassembly guard of
`generateStealthKeyFromSignature` passes if and only if the input has length
exactly 132 and begins with the two characters `0x`; hex-validity of the
remaining 130 characters plays no role, so a 132-character `0x`-prefixed
string with non-hex content passes the guard. -/
theorem claim_C10_reassembly_guard (s : List Char) :
    reassembled (extractPortions s) = s ↔ s.length = 132 ∧ s.take 2 = ['0', 'x'] :=
  reassembled_eq_iff s

/-- Witness for Claim C10 at a concrete input: a 132-character string whose
payload is 130 copies of the non-hex character `z` passes the guard. -/
theorem claim_C10_reassembly_guard_witness :
    reassembled (extractPortions ('0' :: 'x' :: List.replicate 130 'z')) =
      '0' :: 'x' :: List.replicate 130 'z' :=
  (claim_C10_reassembly_guard ('0' :: 'x' :: List.replicate 130 'z')).mpr
    ⟨by simp, by simp⟩

/-- Claim C5: any signature whose length is not 132 characters (65 bytes:
`0x` plus 130 hex characters), or whose extracted segments
`prefix + portion1 + portion2 + lastByte` do not reconcatenate to the
original input, makes `generateStealthKeyFromSignature` fail with the
`MalformedSeed` error. -/
theorem claim_C5_malformed_seed (keccak256 getPublicKey : List Char → List Char)
    (s : List Char)
    (h : s.length ≠ 132 ∨ reassembled (extractPortions s) ≠ s) :
    generateStealthKeyFromSignature keccak256 getPublicKey s = .error .MalformedSeed := by
  have hne : reassembled (extractPortions s) ≠ s := by
    rcases h with h | h
    · intro hc
      exact h ((reassembled_eq_iff s).mp hc).1
    · exact h
  simp [generateStealthKeyFromSignature, hne]

/-- Witness for Claim C5: the 2-character signature `0x` has the wrong length
and is rejected with `MalformedSeed`. -/
theorem claim_C5_malformed_seed_witness :
    generateStealthKeyFromSignature id id ['0', 'x'] = .error .MalformedSeed :=
  claim_C5_malformed_seed id id ['0', 'x'] (Or.inl (by decide))

/-- Claim C8: `generateStealthKeyFromSignature` is deterministic — two calls
with the same seed signature (and the same external hash and public-key
primitives) yield identical `StealthKey` bundles. -/
theorem claim_C8_deterministic (keccak256 getPublicKey : List Char → List Char)
    (sig1 sig2 : List Char) (h : sig1 = sig2) :
    generateStealthKeyFromSignature keccak256 getPublicKey sig1 =
      generateStealthKeyFromSignature keccak256 getPublicKey sig2 := by
  rw [h]

/-- Witness for Claim C8 at a concrete 132-character signature. -/
theorem claim_C8_deterministic_witness :
    generateStealthKeyFromSignature id id ('0' :: 'x' :: List.replicate 130 'a') =
      generateStealthKeyFromSignature id id ('0' :: 'x' :: List.replicate 130 'a') :=
  claim_C8_deterministic id id _ _ rfl

/-- Claim C9: `parseKeysFromStealthMetaAddress` is total: for every input it
returns without error, setting the spending key to `0x` followed by the
characters at positions 2 through 67 of the input, and the viewing key to
`0x` followed by every character from position 68 on; inputs that are not 66
bytes are never rejected (the codomain has no error case). -/
theorem claim_C9_parse_total (s : List Char) :
    parseKeysFromStealthMetaAddress s =
      { spendingPublicKey := '0' :: 'x' :: (s.drop 2).take 66,
        viewingPublicKey := '0' :: 'x' :: s.drop 68 } := by
  simp [parseKeysFromStealthMetaAddress, jsSlice, List.drop_take]

/-- Counterexample to Claim C4: on the 2-byte input `0x1234` — not 66
bytes — `parseKeysFromStealthMetaAddress` does not fail with
`InvalidMetaAddressLength` (no such check exists in the function); it
returns a well-formed result. -/
theorem claim_C4_counterexample :
    parseKeysFromStealthMetaAddress ['0', 'x', '1', '2', '3', '4'] =
      { spendingPublicKey := ['0', 'x', '1', '2', '3', '4'],
        viewingPublicKey := ['0', 'x'] } := by
  decide

/-- Claim C4 (amended): `parseKeysFromStealthMetaAddress` performs no length
validation: even when the input is not exactly 66 bytes (134 characters) it
succeeds, returning `0x` plus slice(2, 68) as the spending key and `0x` plus
slice(68) as the viewing key. -/
theorem claim_C4_amended_no_length_validation (s : List Char) (_h : s.length ≠ 134) :
    parseKeysFromStealthMetaAddress s =
      { spendingPublicKey := '0' :: 'x' :: jsSlice s 2 68,
        viewingPublicKey := '0' :: 'x' :: s.drop 68 } :=
  rfl

/-- Witness for the amended Claim C4 at a concrete 4-character input. -/
theorem claim_C4_amended_witness :
    parseKeysFromStealthMetaAddress ['0', 'x', 'a', 'b'] =
      { spendingPublicKey := '0' :: 'x' :: jsSlice ['0', 'x', 'a', 'b'] 2 68,
        viewingPublicKey := '0' :: 'x' :: List.drop 68 ['0', 'x', 'a', 'b'] } :=
  claim_C4_amended_no_length_validation ['0', 'x', 'a', 'b'] (by decide)

/-- Claim C6: for every pair of valid 33-byte compressed public keys — hex
strings of length 68 beginning with `0x` — decoding the encoded meta-address
returns the original pair. -/
theorem claim_C6_meta_roundtrip (s v : List Char)
    (hs2 : s.take 2 = ['0', 'x']) (hslen : s.length = 68)
    (hv2 : v.take 2 = ['0', 'x']) (hvlen : v.length = 68) :
    parseKeysFromStealthMetaAddress (generateStealthMetaAddressFromKeys s v) =
      { spendingPublicKey := s, viewingPublicKey := v } := by
  obtain ⟨s1, rfl⟩ : ∃ t, s = '0' :: 'x' :: t := by
    refine ⟨s.drop 2, ?_⟩
    conv_lhs => rw [← List.take_append_drop 2 s, hs2]
    rfl
  obtain ⟨v1, rfl⟩ : ∃ t, v = '0' :: 'x' :: t := by
    refine ⟨v.drop 2, ?_⟩
    conv_lhs => rw [← List.take_append_drop 2 v, hv2]
    rfl
  have hs1 : s1.length = 66 := by simp at hslen; omega
  have hv1 : v1.length = 66 := by simp at hvlen; omega
  simp [parseKeysFromStealthMetaAddress, generateStealthMetaAddressFromKeys, jsSlice]
  constructor
  · rw [← hs1, List.take_left]
  · rw [← hs1, List.drop_left]

/-- Witness for Claim C6 at a concrete pair of 68-character keys. -/
theorem claim_C6_meta_roundtrip_witness :
    parseKeysFromStealthMetaAddress
        (generateStealthMetaAddressFromKeys ('0' :: 'x' :: List.replicate 66 'a')
          ('0' :: 'x' :: List.replicate 66 'b')) =
      { spendingPublicKey := '0' :: 'x' :: List.replicate 66 'a',
        viewingPublicKey := '0' :: 'x' :: List.replicate 66 'b' } :=
  claim_C6_meta_roundtrip ('0' :: 'x' :: List.replicate 66 'a')
    ('0' :: 'x' :: List.replicate 66 'b') (by simp) (by simp) (by simp) (by simp)

/-- Claim C1: for every valid bundle — spending key pair `(s, s*G)`, viewing
key pair `(v, v*G)` — and every ephemeral scalar, the stealth address
produced by `generateStealthAddress` from the bundle's meta-address verifies
`true` under `checkStealthAddress` when called with the produced address,
ephemeral public key and view tag together with the matching spending public
key and viewing private key: no false negatives. -/
theorem claim_C1_no_false_negatives (H toAddr : Nat → Nat) (e s v : Nat) :
    checkStealthAddress H toAddr
      (generateStealthAddress H toAddr e ⟨pmulBase s, pmulBase v⟩).stealthPublicKey
      (some (generateStealthAddress H toAddr e ⟨pmulBase s, pmulBase v⟩).ephemeralPublicKey)
      (some (pmulBase s)) v
      (generateStealthAddress H toAddr e ⟨pmulBase s, pmulBase v⟩).viewTag = .ok true := by
  simp only [generateStealthAddress, checkStealthAddress]
  rw [getSharedSecret_comm]
  simp [getStealthPublicKey, Except.map]

/-- Claim C2: for every valid bundle and ephemeral scalar, the public key
derived via scalar-times-generator from the scalar encoded by
`computeStealthPrivateKey` on the bundle and the produced ephemeral public
key equals the stealth public key of the generated address (and hence its
chain address equals the generated one), because `a*G + b*G = (a+b)*G`. -/
theorem claim_C2_recovery_exactness (H toAddr : Nat → Nat) (e s v : Nat) :
    pmulBase (hexToNat ((computeStealthPrivateKey H s v
        (generateStealthAddress H toAddr e ⟨pmulBase s, pmulBase v⟩).ephemeralPublicKey).drop
          2)) =
      stealthPointOf (pmulBase s) (H (getSharedSecret e (pmulBase v))) ∧
    toAddr (pmulBase (hexToNat ((computeStealthPrivateKey H s v
        (generateStealthAddress H toAddr e ⟨pmulBase s, pmulBase v⟩).ephemeralPublicKey).drop
          2))) =
      (generateStealthAddress H toAddr e ⟨pmulBase s, pmulBase v⟩).stealthPublicKey := by
  have hpoint : pmulBase (hexToNat ((computeStealthPrivateKey H s v
      (generateStealthAddress H toAddr e ⟨pmulBase s, pmulBase v⟩).ephemeralPublicKey).drop
        2)) =
      stealthPointOf (pmulBase s) (H (getSharedSecret e (pmulBase v))) := by
    simp only [generateStealthAddress, computeStealthPrivateKey, List.drop_succ_cons,
      List.drop_zero, hexToNat_padHex64]
    rw [getSharedSecret_comm]
    simp only [computeStealthPrivateKeyScalar, addPriv, stealthPointOf, padd, pmulBase]
    rw [Nat.mod_mod_of_dvd _ dvd_rfl, Nat.add_mod]
  refine ⟨hpoint, ?_⟩
  rw [hpoint]
  simp [generateStealthAddress]

/-- Claim C3: for announced tuples whose point encodings decode,
`checkStealthAddress` returns a plain boolean which is `true` exactly when
both the recomputed view tag matches the announced one and the recomputed
chain address matches the announced stealth address; and on a view-tag
mismatch it returns `false` immediately, without computing the stealth point
and without raising — even an undecodable spending-key encoding is never
touched. -/
theorem claim_C3_check_boolean (H toAddr : Nat → Nat) (sa E : Nat)
    (spendEnc : Option Nat) (P v vt : Nat) :
    (checkStealthAddress H toAddr sa (some E) (some P) v vt =
      .ok (decide (getViewTag (H (getSharedSecret v E)) = vt ∧
        sa = toAddr (stealthPointOf P (H (getSharedSecret v E)))))) ∧
    (getViewTag (H (getSharedSecret v E)) ≠ vt →
      checkStealthAddress H toAddr sa (some E) spendEnc v vt = .ok false) := by
  constructor
  · by_cases hvt : getViewTag (H (getSharedSecret v E)) = vt
    · simp [checkStealthAddress, getStealthPublicKey, hvt, Except.map]
    · simp [checkStealthAddress, hvt]
  · intro hvt
    simp [checkStealthAddress, hvt]

/-- Witness for Claim C3 at concrete inputs: with the identity hash and
address conversion, viewing key 2, ephemeral point 3 and spending point 5
the boolean characterization holds, and with announced view tag 1 (the
recomputed tag is 0) the check returns `ok false` even though the spending
encoding is invalid (`none`). -/
theorem claim_C3_check_boolean_witness :
    (checkStealthAddress id id 0 (some 3) (some 5) 2 1 =
      .ok (decide (getViewTag (id (getSharedSecret 2 3)) = 1 ∧
        0 = id (stealthPointOf 5 (id (getSharedSecret 2 3)))))) ∧
    checkStealthAddress id id 0 (some 3) none 2 1 = .ok false :=
  ⟨(claim_C3_check_boolean id id 0 3 none 5 2 1).1,
    (claim_C3_check_boolean id id 0 3 none 5 2 1).2 (by decide)⟩

/-- Claim C7: `computeStealthPrivateKey` returns exactly the scalar
`(spendingPrivateKey + Hash(viewingPrivateKey * ephemeralPublicKey)) mod n`
(`n` the curve order), which always lies in `[0, n)`, encoded as `0x`
followed by exactly 64 hexadecimal characters, big-endian and zero-padded
(the 64 characters evaluate back to the scalar under big-endian hex
evaluation). -/
theorem claim_C7_recovered_scalar (H : Nat → Nat) (s v E : Nat) :
    computeStealthPrivateKeyScalar H s v E =
      (s + H (getSharedSecret v E)) % curveOrder ∧
    computeStealthPrivateKeyScalar H s v E < curveOrder ∧
    (computeStealthPrivateKey H s v E).length = 66 ∧
    (computeStealthPrivateKey H s v E).take 2 = ['0', 'x'] ∧
    hexToNat ((computeStealthPrivateKey H s v E).drop 2) =
      computeStealthPrivateKeyScalar H s v E ∧
    ∀ c ∈ (computeStealthPrivateKey H s v E).drop 2, isHexDigit c = true := by
  have hlt : computeStealthPrivateKeyScalar H s v E < curveOrder :=
    Nat.mod_lt _ curveOrder_pos
  have hpow : computeStealthPrivateKeyScalar H s v E < 16 ^ 64 :=
    lt_trans hlt curveOrder_lt_pow
  refine ⟨rfl, hlt, ?_, rfl, ?_, ?_⟩
  · simp [computeStealthPrivateKey, padHex64_length hpow]
  · simp [computeStealthPrivateKey, hexToNat_padHex64]
  · intro c hc
    simp only [computeStealthPrivateKey, List.drop_succ_cons, List.drop_zero] at hc
    exact padHex64_hex_digits c hc

end StealthAddr
